import Mathlib

/-!
# Relay test server — verification of the framing protocol and engines

Shallow embedding of `src/utils/protocol.py` and `src/utils/relay_test_server.py`.

Bytes are modelled as natural numbers (`ℕ`, values `< 256` where produced by the
encoders); byte strings as `List ℕ`.  Python `struct` packing/unpacking with the
little-endian formats `'<BBH I Q'` (Envelope) and `'<BBHhhhhHHhh'` (GamepadState)
is modelled field by field: unsigned fields as `ℕ`, signed 16-bit fields as `ℤ`
encoded in two's complement.  `struct.pack`'s range checking and
`struct.unpack`'s size requirements are modelled by returning `Option`.

Python 3's `/` on integers is binary64 floating-point true division and `*` on a
float and an int is binary64 multiplication; both are correctly rounded
(round-to-nearest, ties-to-even).  The generator's `tri` helper is embedded with
an exact model of that rounding, implemented over integer arithmetic
(`roundFracToDouble`).  All values arising in `tri` are far inside the normal
binary64 range, so neither subnormals nor overflow need to be modelled.

The `asyncio` engines are embedded as pure functions: a TCP connection is the
finite byte string the peer sends before the connection ends, a UDP datagram is
a byte string, and each engine maps its input to the sequence of observable
events (parsed frames, warnings, close reasons) the Python code would log.
-/

namespace RelayApp

/-! ## Little-endian byte helpers (the layout `struct` uses for `<` formats) -/

/-- Little-endian byte encoding of `v` on `w` bytes
(the byte layout produced by `struct.pack` for one unsigned field). -/
def toLE : ℕ → ℕ → List ℕ
  | 0, _ => []
  | w + 1, v => v % 256 :: toLE w (v / 256)

/-- Little-endian byte decoding
(the value reassembled by `struct.unpack` from one unsigned field). -/
def fromLE : List ℕ → ℕ
  | [] => 0
  | b :: bs => b + 256 * fromLE bs

/-- Signed 16-bit (`struct` format `h`) two's-complement encoding of an integer.
`struct.pack` checks `-32768 ≤ v ≤ 32767`; callers guard with that range. -/
def i16ToLE (v : ℤ) : List ℕ := toLE 2 (Int.toNat (v % 65536))

/-- Signed 16-bit (`struct` format `h`) decoding from two little-endian bytes. -/
def i16FromLE (bs : List ℕ) : ℤ :=
  let v := fromLE bs
  if v < 32768 then (v : ℤ) else (v : ℤ) - 65536

/-! ## `protocol.py` — Envelope -/

/-- The Envelope record of `protocol.py`:
`STRUCT_FORMAT = '<BBH I Q'` — msg_type, version, length (uint16),
seq (uint32), timestamp_us (uint64). -/
structure Envelope where
  msg_type : ℕ
  version : ℕ
  length : ℕ
  seq : ℕ
  timestamp_us : ℕ
deriving DecidableEq

/-- Size constant: `Envelope.SIZE = struct.calcsize('<BBH I Q')`: little-endian, no padding,
so the size is the sum of the field widths `B B H I Q` = 1, 1, 2, 4, 8. -/
def Envelope.SIZE : ℕ := 1 + 1 + 2 + 4 + 8

/-- Field extraction of `struct.unpack('<BBH I Q', data)` on an envelope-sized
byte string.  The wildcard case is unreachable: every caller guards the length
(`struct.unpack` raises on any other size, which `Envelope.from_bytes` models
with `none`). -/
def decodeEnv : List ℕ → Envelope
  | [b0, b1, b2, b3, b4, b5, b6, b7, b8, b9, b10, b11, b12, b13, b14, b15] =>
      { msg_type := b0
        version := b1
        length := fromLE [b2, b3]
        seq := fromLE [b4, b5, b6, b7]
        timestamp_us := fromLE [b8, b9, b10, b11, b12, b13, b14, b15] }
  | _ => { msg_type := 0, version := 0, length := 0, seq := 0, timestamp_us := 0 }

/-- Decoder `Envelope.from_bytes`: `struct.unpack` requires the byte count to equal
`calcsize` exactly, otherwise it raises (modelled as `none`). -/
def Envelope.from_bytes (bs : List ℕ) : Option Envelope :=
  if bs.length = Envelope.SIZE then some (decodeEnv bs) else none

/-- Encoder `struct.pack('<BBH I Q', msg_type, version, length, seq, timestamp_us)`:
checks each field's unsigned range (raising = `none`), then lays the fields out
little-endian with no padding. -/
def structPackEnvelope (e : Envelope) : Option (List ℕ) :=
  if e.msg_type < 256 ∧ e.version < 256 ∧ e.length < 65536 ∧
     e.seq < 2 ^ 32 ∧ e.timestamp_us < 2 ^ 64 then
    some (toLE 1 e.msg_type ++ toLE 1 e.version ++ toLE 2 e.length ++
          toLE 4 e.seq ++ toLE 8 e.timestamp_us)
  else none

/-! ## `protocol.py` — GamepadState -/

/-- The GamepadState record of `protocol.py`:
`STRUCT_FORMAT = '<BBHhhhhHHhh'` — device_id, flags, buttons,
lx, ly, rx, ry, l2, r2, dpad_x, dpad_y. -/
structure GamepadState where
  device_id : ℕ
  flags : ℕ
  buttons : ℕ
  lx : ℤ
  ly : ℤ
  rx : ℤ
  ry : ℤ
  l2 : ℕ
  r2 : ℕ
  dpad_x : ℤ
  dpad_y : ℤ
deriving DecidableEq

/-- Size constant: `GamepadState.SIZE = struct.calcsize('<BBHhhhhHHhh')`. -/
def GamepadState.SIZE : ℕ := 1 + 1 + 2 + 2 + 2 + 2 + 2 + 2 + 2 + 2 + 2

/-- Field extraction of `struct.unpack('<BBHhhhhHHhh', data)` on a payload-sized
byte string.  The wildcard case is unreachable: every caller guards the length. -/
def decodeGS : List ℕ → GamepadState
  | [b0, b1, b2, b3, b4, b5, b6, b7, b8, b9,
     b10, b11, b12, b13, b14, b15, b16, b17, b18, b19] =>
      { device_id := b0
        flags := b1
        buttons := fromLE [b2, b3]
        lx := i16FromLE [b4, b5]
        ly := i16FromLE [b6, b7]
        rx := i16FromLE [b8, b9]
        ry := i16FromLE [b10, b11]
        l2 := fromLE [b12, b13]
        r2 := fromLE [b14, b15]
        dpad_x := i16FromLE [b16, b17]
        dpad_y := i16FromLE [b18, b19] }
  | _ =>
      { device_id := 0, flags := 0, buttons := 0, lx := 0, ly := 0, rx := 0,
        ry := 0, l2 := 0, r2 := 0, dpad_x := 0, dpad_y := 0 }

/-- Decoder `GamepadState.from_bytes`: unpacks `data[:SIZE]`, so the input must hold at
least `SIZE` bytes (`data[:SIZE]` is shorter otherwise and `struct.unpack`
raises, modelled as `none`); trailing bytes beyond the first `SIZE` are
ignored. -/
def GamepadState.from_bytes (bs : List ℕ) : Option GamepadState :=
  if GamepadState.SIZE ≤ bs.length then some (decodeGS (bs.take GamepadState.SIZE))
  else none

/-- Encoder `struct.pack('<BBHhhhhHHhh', ...)`: checks each field's range
(`B`: 0..255, `H`: 0..65535, `h`: −32768..32767), then lays the fields out
little-endian, signed fields in two's complement. -/
def structPackGS (g : GamepadState) : Option (List ℕ) :=
  if g.device_id < 256 ∧ g.flags < 256 ∧ g.buttons < 65536 ∧
     -32768 ≤ g.lx ∧ g.lx ≤ 32767 ∧ -32768 ≤ g.ly ∧ g.ly ≤ 32767 ∧
     -32768 ≤ g.rx ∧ g.rx ≤ 32767 ∧ -32768 ≤ g.ry ∧ g.ry ≤ 32767 ∧
     g.l2 < 65536 ∧ g.r2 < 65536 ∧
     -32768 ≤ g.dpad_x ∧ g.dpad_x ≤ 32767 ∧ -32768 ≤ g.dpad_y ∧ g.dpad_y ≤ 32767 then
    some (toLE 1 g.device_id ++ toLE 1 g.flags ++ toLE 2 g.buttons ++
          i16ToLE g.lx ++ i16ToLE g.ly ++ i16ToLE g.rx ++ i16ToLE g.ry ++
          toLE 2 g.l2 ++ toLE 2 g.r2 ++ i16ToLE g.dpad_x ++ i16ToLE g.dpad_y)
  else none

/-! ## Exact model of binary64 rounding (for `tri` in `relay_test_server.py`)

`tri` computes `int((t if t < half else period - t) / half * amp * (1 if t <
half else -1))`.  The two rounding operations (`/` and the first `*`) are
modelled exactly; the final `* (±1)` only flips the sign of a binary64 value,
which is exact, and `int()` truncates toward zero. -/

/-- Floor of `log₂ n` by structural recursion on a fuel bound (64 is enough for every
value arising here). -/
def log2Fuel : ℕ → ℕ → ℕ
  | 0, _ => 0
  | fuel + 1, n => if n < 2 then 0 else log2Fuel fuel (n / 2) + 1

/-- Least `k` with `n ≤ 2 ^ k`, by structural recursion on a fuel bound. -/
def cl2Fuel : ℕ → ℕ → ℕ
  | 0, _ => 0
  | fuel + 1, n => if n ≤ 1 then 0 else cl2Fuel fuel ((n + 1) / 2) + 1

/-- Floor of `log₂ (a / b)` for a positive fraction `a / b`. -/
def floorLog2Frac (a b : ℕ) : ℤ :=
  if b ≤ a then (log2Fuel 64 (a / b) : ℤ) else -((cl2Fuel 64 ((b + a - 1) / a)) : ℤ)

/-- Round `num / den` to the nearest integer, ties to even. -/
def roundHalfEven (num den : ℕ) : ℕ :=
  let n := num / den
  let r := num % den
  if 2 * r < den then n
  else if den < 2 * r then n + 1
  else if n % 2 = 0 then n else n + 1

/-- Round the nonnegative fraction `a / b` (inside the normal binary64 range) to
the nearest IEEE binary64 value, round-to-nearest ties-to-even.  The result is
the pair `(m, s)` representing `m * 2 ^ s` with a 53-bit mantissa `m`. -/
def roundFracToDouble (a b : ℕ) : ℕ × ℤ :=
  if a = 0 then (0, 0)
  else
    let e := floorLog2Frac a b
    let num := a * 2 ^ (Int.toNat (52 - e))
    let den := b * 2 ^ (Int.toNat (e - 52))
    (roundHalfEven num den, e - 52)

/-- Truncation toward zero of the nonnegative dyadic `m * 2 ^ s`
(Python `int()` on a nonnegative float). -/
def truncDyadic (m : ℕ) (s : ℤ) : ℕ :=
  (m * 2 ^ (Int.toNat s)) / 2 ^ (Int.toNat (-s))

/-! ## `relay_test_server.py` — synthetic generator -/

/-- The `tri` helper of `pack_gamepad_state`:
`t = n % period`, `half = period // 2`, then
`int((t if t < half else period - t) / half * amp * (1 if t < half else -1))`
with `/` and the first `*` in binary64 arithmetic (both correctly rounded),
the `* (±1)` an exact sign flip, and `int()` truncating toward zero.
Faithful for `period ≥ 2` (this codebase only calls it with `period = 200`;
Python would raise `ZeroDivisionError` for `period ≤ 1`). -/
def tri (n period amp : ℕ) : ℤ :=
  let t := n % period
  let half := period / 2
  let x : ℕ := if t < half then t else period - t
  let d := roundFracToDouble x half
  let p := roundFracToDouble (d.1 * amp * 2 ^ (Int.toNat d.2)) (2 ^ (Int.toNat (-d.2)))
  let magVal : ℕ := truncDyadic p.1 p.2
  if t < half then (magVal : ℤ) else -(magVal : ℤ)

/-- The field computations of `pack_gamepad_state(seq)`:
`buttons = 0x0001 if (seq // 30) % 2 == 0 else 0x0002`,
stick axes from `tri` at phases `seq`, `seq+50`, `seq+100`, `seq+150`,
`l2 = (seq * 8) % 1024`, `r2 = (seq * 5) % 1024`,
`dpad_x = -1 if (seq // 60) % 3 == 0 else (1 if (seq // 60) % 3 == 1 else 0)`,
`dpad_y = 0`, `device_id = 0`, `flags = 0x01`. -/
def gamepadFields (seq : ℕ) : GamepadState :=
  { device_id := 0
    flags := 0x01
    buttons := if (seq / 30) % 2 = 0 then 0x0001 else 0x0002
    lx := tri seq 200 12000
    ly := tri (seq + 50) 200 12000
    rx := tri (seq + 100) 200 12000
    ry := tri (seq + 150) 200 12000
    l2 := (seq * 8) % 1024
    r2 := (seq * 5) % 1024
    dpad_x := if (seq / 60) % 3 = 0 then -1 else if (seq / 60) % 3 = 1 then 1 else 0
    dpad_y := 0 }

/-- Function `pack_gamepad_state(seq)`: computes the synthetic fields and packs them with
`struct.pack(_GS_SFMT, ...)`. -/
def pack_gamepad_state (seq : ℕ) : Option (List ℕ) :=
  structPackGS (gamepadFields seq)

/-- Function `pack_envelope(msg_type, version, payload, seq)`:
`length = len(payload)` and `struct.pack(_ENVELOPE_SFMT, ...)`.  The wall-clock
`timestamp_us = time.time_ns() // 1_000` is an ambient input, passed as a
parameter here. -/
def pack_envelope (msg_type version : ℕ) (payload : List ℕ) (seq timestamp_us : ℕ) :
    Option (List ℕ) :=
  structPackEnvelope
    { msg_type := msg_type, version := version, length := payload.length,
      seq := seq, timestamp_us := timestamp_us }

/-- Modelled from the spec: the triangular-wave contract of §4.4 in exact
arithmetic — `t = n mod P`, `half = P / 2` (integer division), `value = (t if
t < half else P - t) / half * A, negated when t >= half`, with the division
carried out exactly and the result truncated toward zero (for `P = 200`,
`A = 12000` the quotient is an exact integer, so no truncation occurs). -/
def triSpecExact (n : ℕ) : ℤ :=
  let t := n % 200
  let half : ℕ := 200 / 2
  let x : ℕ := if t < half then t else 200 - t
  let v : ℤ := ((x : ℤ) * 12000) / (half : ℤ)
  if t < half then v else -v

/-- The residues mod 200 at which the binary64 evaluation in `tri` lands one
unit closer to zero than the exact triangular-wave formula. -/
def deviationTicks : List ℕ := [29, 57, 58, 142, 143, 171]

/-! ## `relay_test_server.py` — TCP source (`tcp_source`) -/

/-- Backoff update on the connect/send failure path of `tcp_source`
(`backoff = min(backoff * 2, 10.0)`).  All values reachable from the initial
`1.0` are exactly representable in binary64, so ℚ models the float exactly. -/
def backoffOnFailure (b : ℚ) : ℚ := min (b * 2) 10

/-- Backoff after a successful connect (`backoff = 1.0`), also its initial
value at the top of `tcp_source`. -/
def backoffOnConnect : ℚ := 1

/-- Delay slept before the `n`-th consecutive failed reconnect attempt
(0-indexed): the code sleeps the current backoff, then doubles-and-caps it. -/
def failDelays : ℕ → ℚ
  | 0 => 1
  | n + 1 => backoffOnFailure (failDelays n)

/-- The `seq` values stamped on the frames of one TCP connection that sends `k`
frames: `tcp_source` sets `seq = 0` after `open_connection` succeeds and does
`seq += 1` after each send. -/
def sessionSeqs (k : ℕ) : List ℕ := List.range k

/-- The `seq` values of all frames emitted over one `tcp_source` run whose
successive connections send `k₁, k₂, …` frames each before failing: the
`while True:` loop re-enters the connect path and re-runs `seq = 0`. -/
def sourceTrace (sessions : List ℕ) : List ℕ := (sessions.map sessionSeqs).flatten

/-! ## `relay_test_server.py` — TCP sink (`tcp_sink` / `tcp_sink_client`) -/

/-- Why a `tcp_sink_client` read loop ended. -/
inductive SinkClose where
  /-- Exceptions `IncompleteReadError` / `TimeoutError`: the stream ended (or timed out)
  before the requested bytes arrived. -/
  | shortRead
  /-- Check `env.length <= 0 or env.length > 4096`: logged and `break`. -/
  | invalidLength
deriving DecidableEq

/-- The per-frame observable of the sink loops: either the parsed state or the
`GamepadState` parse failure, together with whether the non-fatal
`env.length != GamepadState.SIZE` warning fired. -/
inductive FrameEvent where
  | parsed (env : Envelope) (state : GamepadState) (sizeMismatch : Bool)
  | parseFailed (env : Envelope) (sizeMismatch : Bool)
deriving DecidableEq

/-- Frame Validator steps 3–4 on an envelope and its payload bytes: warn when
`env.length != GamepadState.SIZE`, then best-effort `GamepadState.from_bytes`
under `try/except`. -/
def frameEvent (env : Envelope) (payload : List ℕ) : FrameEvent :=
  match GamepadState.from_bytes payload with
  | some s => .parsed env s (env.length != GamepadState.SIZE)
  | none => .parseFailed env (env.length != GamepadState.SIZE)

/-- The `tcp_sink_client` read loop over the byte string one connection
delivers before the peer stops sending.  Each iteration reads exactly
`Envelope.SIZE` header bytes, checks `env.length <= 0 or env.length > 4096`
(on a decoded `uint16`, `<= 0` means `= 0`) before any payload read, then reads
exactly `env.length` payload bytes and runs validator steps 3–4.  Recursion is
by fuel; each iteration consumes at least `Envelope.SIZE + 1` bytes, so
`s.length + 1` fuel always suffices. -/
def tcpSinkLoop : ℕ → List ℕ → List FrameEvent × SinkClose
  | 0, _ => ([], .shortRead)
  | fuel + 1, s =>
    if s.length < Envelope.SIZE then ([], .shortRead)
    else
      let env := decodeEnv (s.take Envelope.SIZE)
      if env.length = 0 ∨ 4096 < env.length then ([], .invalidLength)
      else if s.length < Envelope.SIZE + env.length then ([], .shortRead)
      else
        let payload := (s.drop Envelope.SIZE).take env.length
        let rest := tcpSinkLoop fuel (s.drop (Envelope.SIZE + env.length))
        (frameEvent env payload :: rest.1, rest.2)

/-- One accepted TCP sink connection: run the read loop on everything the peer
sends; every exit path closes only this connection (`finally:` close). -/
def tcpSinkClient (s : List ℕ) : List FrameEvent × SinkClose :=
  tcpSinkLoop (s.length + 1) s

/-- The TCP sink listener: each accepted connection is handled independently by
`tcp_sink_client`; no connection's outcome affects another's. -/
def tcpSinkServer (conns : List (List ℕ)) : List (List FrameEvent × SinkClose) :=
  conns.map tcpSinkClient

/-! ## `relay_test_server.py` — UDP sink (`UDPSinkProtocol.datagram_received`) -/

/-- Observable outcome of `datagram_received` on one datagram.  The
`invalidLength` variant is the spec's Frame Validator step 1 rejection
(`length = 0` or `length > 4096`); it is part of the observation language so
that its absence from the handler can be stated. -/
inductive UdpOutcome where
  | shortPacket
  | invalidLength
  | truncatedPayload (env : Envelope)
  | parsed (env : Envelope) (state : GamepadState) (sizeMismatch : Bool)
  | parseFailed (env : Envelope) (sizeMismatch : Bool)
deriving DecidableEq

/-- Handler `UDPSinkProtocol.datagram_received(data)`: short packets are logged and
dropped; otherwise the envelope is decoded from the leading
`Envelope.SIZE`-byte slice, `payload = data[_ENV_SIZE:_ENV_SIZE + env.length]`
(Python slicing clamps to the data that arrived), a truncated payload is logged
and dropped, a size mismatch is a non-fatal warning, and `GamepadState`
parsing is best-effort under `try/except`.  Every path returns; nothing
escapes the handler. -/
def datagram_received (data : List ℕ) : UdpOutcome :=
  if data.length < Envelope.SIZE then .shortPacket
  else
    let env := decodeEnv (data.take Envelope.SIZE)
    let payload := (data.drop Envelope.SIZE).take env.length
    if payload.length ≠ env.length then .truncatedPayload env
    else
      match GamepadState.from_bytes payload with
      | some s => .parsed env s (env.length != GamepadState.SIZE)
      | none => .parseFailed env (env.length != GamepadState.SIZE)

/-! ## Helper lemmas -/

section Helpers

set_option maxRecDepth 10000

@[simp] theorem length_toLE (w v : ℕ) : (toLE w v).length = w := by
  induction w generalizing v with
  | zero => rfl
  | succ k ih => simp [toLE, ih]

@[simp] theorem length_i16ToLE (v : ℤ) : (i16ToLE v).length = 2 := by
  simp [i16ToLE]

theorem toLE_one (v : ℕ) : toLE 1 v = [v % 256] := by
  simp [toLE]

theorem toLE_two (v : ℕ) : toLE 2 v = [v % 256, v / 256 % 256] := by
  simp [toLE, Nat.div_div_eq_div_mul]

theorem toLE_four (v : ℕ) :
    toLE 4 v = [v % 256, v / 256 % 256, v / 256 ^ 2 % 256, v / 256 ^ 3 % 256] := by
  simp [toLE, Nat.div_div_eq_div_mul]

theorem toLE_eight (v : ℕ) :
    toLE 8 v = [v % 256, v / 256 % 256, v / 256 ^ 2 % 256, v / 256 ^ 3 % 256,
                v / 256 ^ 4 % 256, v / 256 ^ 5 % 256, v / 256 ^ 6 % 256,
                v / 256 ^ 7 % 256] := by
  simp [toLE, Nat.div_div_eq_div_mul]

theorem fromLE_two (a b : ℕ) : fromLE [a, b] = a + 256 * b := by
  simp [fromLE]

theorem i16FromLE_toLE (v : ℤ) (h₁ : -32768 ≤ v) (h₂ : v ≤ 32767) :
    i16FromLE (i16ToLE v) = v := by
  have h3 : (0 : ℤ) ≤ v % 65536 := Int.emod_nonneg v (by norm_num)
  have h4 : v % 65536 < 65536 := Int.emod_lt_of_pos v (by norm_num)
  simp only [i16ToLE, toLE_two, i16FromLE, fromLE_two]
  split <;> omega

theorem i16FromLE_bytes (v : ℤ) (h₁ : -32768 ≤ v) (h₂ : v ≤ 32767) :
    i16FromLE [Int.toNat (v % 65536) % 256, Int.toNat (v % 65536) / 256 % 256] = v := by
  have h := i16FromLE_toLE v h₁ h₂
  rwa [i16ToLE, toLE_two] at h

/-- Decoding the packed bytes of an in-range envelope recovers its fields. -/
theorem envelope_decode_encode (a b c d f : ℕ)
    (h1 : a < 256) (h2 : b < 256) (h3 : c < 65536)
    (h4 : d < 2 ^ 32) (h5 : f < 2 ^ 64) :
    Envelope.from_bytes
        (toLE 1 a ++ toLE 1 b ++ toLE 2 c ++ toLE 4 d ++ toLE 8 f) =
      some ⟨a, b, c, d, f⟩ := by
  norm_num at h4 h5
  rw [toLE_one, toLE_one, toLE_two, toLE_four, toLE_eight]
  simp only [List.cons_append, List.nil_append]
  rw [Envelope.from_bytes, if_pos (by simp [Envelope.SIZE])]
  simp only [decodeEnv, fromLE, Option.some.injEq, Envelope.mk.injEq]
  refine ⟨by omega, by omega, by omega, by omega, by omega⟩

/-- Decoding the packed bytes of an in-range gamepad record recovers its
fields. -/
theorem gamepad_decode_encode (d0 fl bt : ℕ) (ax ay bx by' : ℤ) (tl tr : ℕ)
    (dx dy : ℤ)
    (h1 : d0 < 256) (h2 : fl < 256) (h3 : bt < 65536)
    (h4 : -32768 ≤ ax) (h5 : ax ≤ 32767) (h6 : -32768 ≤ ay) (h7 : ay ≤ 32767)
    (h8 : -32768 ≤ bx) (h9 : bx ≤ 32767) (h10 : -32768 ≤ by') (h11 : by' ≤ 32767)
    (h12 : tl < 65536) (h13 : tr < 65536)
    (h14 : -32768 ≤ dx) (h15 : dx ≤ 32767) (h16 : -32768 ≤ dy) (h17 : dy ≤ 32767) :
    GamepadState.from_bytes
        (toLE 1 d0 ++ toLE 1 fl ++ toLE 2 bt ++ i16ToLE ax ++ i16ToLE ay ++
         i16ToLE bx ++ i16ToLE by' ++ toLE 2 tl ++ toLE 2 tr ++ i16ToLE dx ++
         i16ToLE dy) =
      some ⟨d0, fl, bt, ax, ay, bx, by', tl, tr, dx, dy⟩ := by
  simp only [i16ToLE, toLE_one, toLE_two]
  simp only [List.cons_append, List.nil_append]
  rw [GamepadState.from_bytes, if_pos (by simp [GamepadState.SIZE])]
  rw [List.take_of_length_le (by simp [GamepadState.SIZE])]
  simp only [decodeGS, Option.some.injEq, GamepadState.mk.injEq]
  refine ⟨by omega, by omega, (by rw [fromLE_two]; omega), ?_, ?_, ?_, ?_,
    (by rw [fromLE_two]; omega), (by rw [fromLE_two]; omega), ?_, ?_⟩
  · exact i16FromLE_bytes ax h4 h5
  · exact i16FromLE_bytes ay h6 h7
  · exact i16FromLE_bytes bx h8 h9
  · exact i16FromLE_bytes by' h10 h11
  · exact i16FromLE_bytes dx h14 h15
  · exact i16FromLE_bytes dy h16 h17

/-- Periodicity: `tri` depends on `n` only through `n % period`. -/
theorem tri_mod (n period amp : ℕ) : tri n period amp = tri (n % period) period amp := by
  have h : n % period % period = n % period := Nat.mod_mod_of_dvd n dvd_rfl
  simp only [tri, h]

theorem tri_bounds_lt200 :
    ∀ t < 200, -12000 ≤ tri t 200 12000 ∧ tri t 200 12000 ≤ 12000 := by decide

theorem tri_bounds (n : ℕ) : -12000 ≤ tri n 200 12000 ∧ tri n 200 12000 ≤ 12000 := by
  rw [tri_mod]
  exact tri_bounds_lt200 (n % 200) (Nat.mod_lt n (by norm_num))

theorem tri_spec_deviation_lt200 :
    ∀ t < 200, tri t 200 12000 =
      triSpecExact t + (if t ∈ deviationTicks then (if t < 100 then -1 else 1) else 0) := by
  decide

/-- Periodicity: `triSpecExact` also depends on `n` only through `n % 200`. -/
theorem triSpecExact_mod (n : ℕ) : triSpecExact n = triSpecExact (n % 200) := by
  have h : n % 200 % 200 = n % 200 := Nat.mod_mod_of_dvd n dvd_rfl
  simp only [triSpecExact, h]

theorem tri_spec_deviation (n : ℕ) :
    tri n 200 12000 =
      triSpecExact n +
        (if n % 200 ∈ deviationTicks then (if n % 200 < 100 then -1 else 1) else 0) := by
  rw [tri_mod, triSpecExact_mod]
  have h := tri_spec_deviation_lt200 (n % 200) (Nat.mod_lt n (by norm_num))
  have h2 : n % 200 % 200 = n % 200 := Nat.mod_mod_of_dvd n dvd_rfl
  rw [h]

theorem tri_symm_lt100 :
    ∀ k < 100, (tri (100 + k) 200 12000).natAbs = (tri (100 - k) 200 12000).natAbs := by
  decide

end Helpers

/-! ## Claim theorems -/

/-- C1, counterexample: the Envelope's encoded size is not 14 bytes.
`struct.calcsize('<BBH I Q')` is 1+1+2+4+8 = 16 (the spec's "14" contradicts
its own summand list). -/
theorem envelope_size_not_14 : Envelope.SIZE ≠ 14 := by decide

/-- C1, amended: the Envelope's total encoded binary size is 16 bytes,
computable from its layout (1+1+2+4+8, little-endian, no padding);
`Envelope.SIZE` equals 16 and every encoded envelope occupies exactly 16 bytes
on the wire. -/
theorem envelope_size_sixteen :
    Envelope.SIZE = 16 ∧ Envelope.SIZE = 1 + 1 + 2 + 4 + 8 ∧
    ∀ e bs, structPackEnvelope e = some bs → bs.length = Envelope.SIZE := by
  refine ⟨rfl, rfl, fun e bs h => ?_⟩
  unfold structPackEnvelope at h
  split at h
  · injection h with h'
    subst h'
    simp [Envelope.SIZE]
  · simp at h

/-- Witness for C1's amended theorem: a concrete envelope packs to 16 bytes. -/
theorem envelope_size_sixteen_witness :
    structPackEnvelope ⟨1, 1, 20, 0, 0⟩ =
        some [1, 1, 20, 0, 0, 0, 0, 0, 0, 0, 0, 0, 0, 0, 0, 0] ∧
    ([1, 1, 20, 0, 0, 0, 0, 0, 0, 0, 0, 0, 0, 0, 0, 0] : List ℕ).length =
      Envelope.SIZE :=
  ⟨by decide, envelope_size_sixteen.2.2 ⟨1, 1, 20, 0, 0⟩ _ (by decide)⟩

/-- C2, counterexample: `tcp_source` re-runs `seq = 0` after every successful
reconnect, so in a run whose first connection sends one frame and whose second
connection (after a reconnect) sends one frame, both frames carry `seq = 0` —
the later-emitted frame does not have a strictly larger `seq`. -/
theorem tcp_source_seq_reset_counterexample :
    sourceTrace [1, 1] = [0, 0] ∧
    ¬ (sourceTrace [1, 1]).getD 0 0 < (sourceTrace [1, 1]).getD 1 0 := by
  decide

/-- C2, amended: the TCP source stamps `seq` starting at 0 on each successful
(re)connect and increments it by 1 per frame, so within any single connection
the sequence numbers are `0, 1, 2, …`, strictly increasing — but the counter
is reset to 0 by every reconnect, and the whole-run trace is the concatenation
of the per-connection runs. -/
theorem tcp_source_seq_per_connection :
    (∀ k, (sessionSeqs k).length = k) ∧
    (∀ k i, i < k → (sessionSeqs k).getD i 0 = i) ∧
    (∀ k, (sessionSeqs k).Pairwise (· < ·)) ∧
    (∀ sessions, sourceTrace sessions = (sessions.map sessionSeqs).flatten) := by
  refine ⟨fun k => List.length_range k, fun k i h => ?_,
    fun k => List.pairwise_lt_range k, fun sessions => rfl⟩
  simp [sessionSeqs, List.getD, List.getElem?_range h]

/-- Witness for C2's amended theorem: in a 5-frame connection the frame at
index 3 carries `seq = 3`. -/
theorem tcp_source_seq_per_connection_witness :
    (3 : ℕ) < 5 ∧ (sessionSeqs 5).getD 3 0 = 3 :=
  ⟨by decide, tcp_source_seq_per_connection.2.1 5 3 (by decide)⟩

/-- C5, counterexample: at tick 29 the code's `tri` (binary64 arithmetic)
yields 3479, while the spec's exact triangular-wave formula yields
`29 / 100 * 12000 = 3480`: the generator does not reproduce the contract
exactly at every tick. -/
theorem tri_deviates_at_29 :
    tri 29 200 12000 = 3479 ∧ triSpecExact 29 = 3480 ∧
    tri 29 200 12000 ≠ triSpecExact 29 := by decide

/-- C5, amended: the stick-axis inputs are `seq`, `seq+50`, `seq+100`,
`seq+150` for lx, ly, rx, ry, and `tri` computes the spec's triangular-wave
formula in binary64 arithmetic truncated toward zero — which equals the exact
formula at every tick except the residues 29, 57, 58, 142, 143, 171 (mod 200),
where the value is exactly one unit closer to zero. -/
theorem tri_matches_spec_with_float_deviation :
    (∀ seq, (gamepadFields seq).lx = tri seq 200 12000 ∧
       (gamepadFields seq).ly = tri (seq + 50) 200 12000 ∧
       (gamepadFields seq).rx = tri (seq + 100) 200 12000 ∧
       (gamepadFields seq).ry = tri (seq + 150) 200 12000) ∧
    (∀ n, tri n 200 12000 =
       triSpecExact n +
         (if n % 200 ∈ deviationTicks then (if n % 200 < 100 then -1 else 1) else 0)) :=
  ⟨fun _ => ⟨rfl, rfl, rfl, rfl⟩, tri_spec_deviation⟩

/-- C6: for period 200 and amplitude 12000, the generator's triangular wave is
0 at tick 0, its magnitudes over one period are symmetric around tick 100
(`|tri (100 + k)| = |tri (100 - k)|`), and every value lies within
[-12000, 12000] for all non-negative ticks. -/
theorem tri_zero_symmetric_bounded :
    tri 0 200 12000 = 0 ∧
    (∀ k, k < 100 →
      (tri (100 + k) 200 12000).natAbs = (tri (100 - k) 200 12000).natAbs) ∧
    (∀ n, -12000 ≤ tri n 200 12000 ∧ tri n 200 12000 ≤ 12000) :=
  ⟨by decide, fun k hk => tri_symm_lt100 k hk, tri_bounds⟩

/-- Witness for C6: the symmetry conjunct at `k = 30`. -/
theorem tri_zero_symmetric_bounded_witness :
    (30 : ℕ) < 100 ∧ (tri 130 200 12000).natAbs = (tri 70 200 12000).natAbs :=
  ⟨by decide, tri_zero_symmetric_bounded.2.1 30 (by decide)⟩

/-- C9: the reconnect backoff starts at 1.0 s, each consecutive failure sleeps
the current backoff and then doubles it capped at 10.0 s
(so `failDelays n = min (2 ^ n) 10`, never exceeding 10), a successful connect
resets it to 1.0 s, and the delays under uninterrupted consecutive failures
are 1, 2, 4, 8, 10, 10, …. -/
theorem tcp_source_backoff :
    failDelays 0 = 1 ∧
    (∀ n, failDelays (n + 1) = min (failDelays n * 2) 10) ∧
    (∀ n, failDelays n = min (2 ^ n) 10) ∧
    (∀ n, failDelays n ≤ 10) ∧
    backoffOnConnect = 1 ∧
    [failDelays 0, failDelays 1, failDelays 2, failDelays 3, failDelays 4,
      failDelays 5] = [1, 2, 4, 8, 10, 10] := by
  have hform : ∀ n, failDelays n = min ((2 : ℚ) ^ n) 10 := by
    intro n
    induction n with
    | zero =>
      rw [pow_zero, min_eq_left (by norm_num : (1 : ℚ) ≤ 10)]
      rfl
    | succ k ih =>
      rw [failDelays, backoffOnFailure, ih]
      rcases le_total ((2 : ℚ) ^ k) 10 with h | h
      · rw [min_eq_left h, pow_succ]
      · have h1 : (10 : ℚ) ≤ 2 ^ (k + 1) := by
          rw [pow_succ]
          nlinarith
        rw [min_eq_right h, min_eq_right (by norm_num : (10 : ℚ) ≤ 10 * 2),
          min_eq_right h1]
  refine ⟨rfl, fun n => rfl, hform, fun n => ?_, rfl, ?_⟩
  · rw [hform]
    exact min_le_right _ _
  · simp [failDelays, backoffOnFailure, min_def]
    norm_num

/-- C7: `Envelope` decode succeeds exactly on inputs of the fixed envelope size
(shorter and longer inputs both fail); `GamepadState` decode succeeds exactly
on inputs of at least the fixed payload size, and on longer inputs consumes
only the first fixed-size slice, ignoring any suffix.  Both decoders are total
functions of the byte list, so neither reads out of bounds. -/
theorem decode_length_requirements :
    (∀ bs : List ℕ, (Envelope.from_bytes bs).isSome ↔ bs.length = Envelope.SIZE) ∧
    (∀ bs : List ℕ,
      (GamepadState.from_bytes bs).isSome ↔ GamepadState.SIZE ≤ bs.length) ∧
    (∀ bs suffix : List ℕ, GamepadState.SIZE ≤ bs.length →
      GamepadState.from_bytes (bs ++ suffix) = GamepadState.from_bytes bs) := by
  refine ⟨fun bs => ?_, fun bs => ?_, fun bs suffix h => ?_⟩
  · simp only [Envelope.from_bytes]
    split <;> simp_all
  · simp only [GamepadState.from_bytes]
    split <;> simp_all
  · have hlen : GamepadState.SIZE ≤ (bs ++ suffix).length := by
      rw [List.length_append]; omega
    rw [GamepadState.from_bytes, GamepadState.from_bytes, if_pos hlen, if_pos h,
      List.take_append_of_le_length h]

/-- Witness for C7: a 20-byte payload decodes, and appending a trailing byte
does not change the decoded record. -/
theorem decode_length_requirements_witness :
    GamepadState.SIZE ≤ (List.replicate 20 (0 : ℕ)).length ∧
    GamepadState.from_bytes (List.replicate 20 (0 : ℕ) ++ [7]) =
      GamepadState.from_bytes (List.replicate 20 (0 : ℕ)) :=
  ⟨by decide, decode_length_requirements.2.2 _ [7] (by decide)⟩

/-- C3, counterexample: the UDP handler has no Frame Validator step 1.  A
16-byte datagram declaring `length = 0` is not rejected as `InvalidLength`: it
passes the truncation check (empty payload matches the declared length), fires
the non-fatal size-mismatch warning, and ends in the step-4 parse-failure path
(`GamepadState` cannot parse 0 bytes). -/
theorem udp_sink_no_invalid_length :
    datagram_received [1, 1, 0, 0, 0, 0, 0, 0, 0, 0, 0, 0, 0, 0, 0, 0] =
      UdpOutcome.parseFailed ⟨1, 1, 0, 0, 0⟩ true ∧
    (decodeEnv (([1, 1, 0, 0, 0, 0, 0, 0, 0, 0, 0, 0, 0, 0, 0, 0] : List ℕ).take
        Envelope.SIZE)).length = 0 ∧
    datagram_received [1, 1, 0, 0, 0, 0, 0, 0, 0, 0, 0, 0, 0, 0, 0, 0] ≠
      UdpOutcome.invalidLength := by
  decide

/-- C3, amended: for every received UDP datagram the handler applies Frame
Validator steps 2–4 (truncation check, non-fatal size mismatch, best-effort
payload decode) against the leading envelope-sized slice and the remaining
declared-length slice — but not step 1: no datagram is ever rejected as
`InvalidLength`, whatever its declared length.  The handler is a total
function: every error path returns an outcome, leaving the socket open. -/
theorem udp_sink_steps_two_to_four :
    (∀ d, datagram_received d ≠ UdpOutcome.invalidLength) ∧
    (∀ d, d.length < Envelope.SIZE → datagram_received d = UdpOutcome.shortPacket) ∧
    (∀ d env, Envelope.SIZE ≤ d.length → decodeEnv (d.take Envelope.SIZE) = env →
      (((d.drop Envelope.SIZE).take env.length).length ≠ env.length →
         datagram_received d = UdpOutcome.truncatedPayload env) ∧
      (∀ s, ((d.drop Envelope.SIZE).take env.length).length = env.length →
         GamepadState.from_bytes ((d.drop Envelope.SIZE).take env.length) = some s →
         datagram_received d = UdpOutcome.parsed env s (env.length != GamepadState.SIZE)) ∧
      (((d.drop Envelope.SIZE).take env.length).length = env.length →
         GamepadState.from_bytes ((d.drop Envelope.SIZE).take env.length) = none →
         datagram_received d = UdpOutcome.parseFailed env (env.length != GamepadState.SIZE))) := by
  refine ⟨fun d => ?_, fun d h => ?_, fun d env hlen henv => ?_⟩
  · unfold datagram_received
    split
    · simp
    · dsimp only
      split
      · simp
      · split <;> simp
  · unfold datagram_received
    rw [if_pos h]
  · have hnot : ¬ d.length < Envelope.SIZE := by omega
    refine ⟨fun htr => ?_, fun s hpl hs => ?_, fun hpl hn => ?_⟩
    · unfold datagram_received
      rw [if_neg hnot]
      simp only [henv]
      rw [if_pos htr]
    · unfold datagram_received
      rw [if_neg hnot]
      simp only [henv]
      rw [if_neg (by omega), hs]
    · unfold datagram_received
      rw [if_neg hnot]
      simp only [henv]
      rw [if_neg (by omega), hn]

/-- Witness for C3's amended theorem: a well-formed 36-byte datagram
(envelope declaring 20 payload bytes, then 20 zero bytes) is parsed by the
step-2–4 pipeline into the all-zero gamepad record with no mismatch warning. -/
theorem udp_sink_steps_two_to_four_witness :
    Envelope.SIZE ≤
      ([1, 1, 20, 0, 0, 0, 0, 0, 0, 0, 0, 0, 0, 0, 0, 0,
        0, 0, 0, 0, 0, 0, 0, 0, 0, 0, 0, 0, 0, 0, 0, 0, 0, 0, 0, 0] : List ℕ).length ∧
    datagram_received
        [1, 1, 20, 0, 0, 0, 0, 0, 0, 0, 0, 0, 0, 0, 0, 0,
         0, 0, 0, 0, 0, 0, 0, 0, 0, 0, 0, 0, 0, 0, 0, 0, 0, 0, 0, 0] =
      UdpOutcome.parsed ⟨1, 1, 20, 0, 0⟩ ⟨0, 0, 0, 0, 0, 0, 0, 0, 0, 0, 0⟩ false :=
  ⟨by decide,
    (udp_sink_steps_two_to_four.2.2
        [1, 1, 20, 0, 0, 0, 0, 0, 0, 0, 0, 0, 0, 0, 0, 0,
         0, 0, 0, 0, 0, 0, 0, 0, 0, 0, 0, 0, 0, 0, 0, 0, 0, 0, 0, 0]
        ⟨1, 1, 20, 0, 0⟩ (by decide) (by decide)).2.1
      ⟨0, 0, 0, 0, 0, 0, 0, 0, 0, 0, 0⟩ (by decide) (by decide)⟩

/-- C8: in the TCP sink, for every decoded envelope whose length field is 0 or
greater than 4096, the connection is closed with the invalid-length reason
without reading or consuming any payload and without emitting any frame event;
for every envelope with length in (0, 4096] (and a peer that sent the bytes),
the sink reads exactly `length` payload bytes and processes that frame; and the
listener handles every connection independently, so one client's invalid frame
never affects the handling of other or later connections. -/
theorem tcp_sink_validator :
    (∀ s env, Envelope.from_bytes (s.take Envelope.SIZE) = some env →
       env.length = 0 ∨ 4096 < env.length →
       tcpSinkClient s = ([], SinkClose.invalidLength)) ∧
    (∀ s env, Envelope.from_bytes (s.take Envelope.SIZE) = some env →
       0 < env.length → env.length ≤ 4096 → Envelope.SIZE + env.length ≤ s.length →
       ((s.drop Envelope.SIZE).take env.length).length = env.length ∧
       (tcpSinkClient s).1.head? =
         some (frameEvent env ((s.drop Envelope.SIZE).take env.length))) ∧
    (∀ conns c, tcpSinkServer (conns ++ [c]) = tcpSinkServer conns ++ [tcpSinkClient c]) := by
  have hsz : ∀ s : List ℕ, ∀ env, Envelope.from_bytes (s.take Envelope.SIZE) = some env →
      Envelope.SIZE ≤ s.length ∧ decodeEnv (s.take Envelope.SIZE) = env := by
    intro s env h
    rw [Envelope.from_bytes] at h
    split at h
    · rename_i hc
      rw [List.length_take] at hc
      exact ⟨by omega, by injection h⟩
    · exact absurd h (by simp)
  refine ⟨fun s env h hbad => ?_, fun s env h h1 h2 h3 => ?_, fun conns c => ?_⟩
  · obtain ⟨hlen, henv⟩ := hsz s env h
    unfold tcpSinkClient tcpSinkLoop
    rw [if_neg (by omega)]
    simp only [henv]
    rw [if_pos hbad]
  · obtain ⟨hlen, henv⟩ := hsz s env h
    constructor
    · rw [List.length_take, List.length_drop]
      omega
    · unfold tcpSinkClient tcpSinkLoop
      rw [if_neg (by omega)]
      simp only [henv]
      rw [if_neg (by omega), if_neg (by omega)]
      rfl
  · simp [tcpSinkServer]

/-- Witness for C8: a 16-byte stream declaring `length = 0` closes with the
invalid-length reason and produces no frame events. -/
theorem tcp_sink_validator_witness :
    Envelope.from_bytes
        (([9, 1, 0, 0, 0, 0, 0, 0, 0, 0, 0, 0, 0, 0, 0, 0] : List ℕ).take
          Envelope.SIZE) = some ⟨9, 1, 0, 0, 0⟩ ∧
    tcpSinkClient [9, 1, 0, 0, 0, 0, 0, 0, 0, 0, 0, 0, 0, 0, 0, 0] =
      ([], SinkClose.invalidLength) :=
  ⟨by decide,
    tcp_sink_validator.1 [9, 1, 0, 0, 0, 0, 0, 0, 0, 0, 0, 0, 0, 0, 0, 0]
      ⟨9, 1, 0, 0, 0⟩ (by decide) (by decide)⟩

/-- C4: round-trip of the codecs — for every `Envelope` with all five fields in
their declared unsigned ranges and every `GamepadState` with all eleven fields
in their declared signed/unsigned ranges, decoding the encoded bytes yields a
record equal field-by-field to the original. -/
theorem codec_roundtrip :
    (∀ e : Envelope, e.msg_type < 256 → e.version < 256 → e.length < 65536 →
      e.seq < 2 ^ 32 → e.timestamp_us < 2 ^ 64 →
      (structPackEnvelope e).bind Envelope.from_bytes = some e) ∧
    (∀ g : GamepadState, g.device_id < 256 → g.flags < 256 → g.buttons < 65536 →
      -32768 ≤ g.lx → g.lx ≤ 32767 → -32768 ≤ g.ly → g.ly ≤ 32767 →
      -32768 ≤ g.rx → g.rx ≤ 32767 → -32768 ≤ g.ry → g.ry ≤ 32767 →
      g.l2 < 65536 → g.r2 < 65536 →
      -32768 ≤ g.dpad_x → g.dpad_x ≤ 32767 → -32768 ≤ g.dpad_y → g.dpad_y ≤ 32767 →
      (structPackGS g).bind GamepadState.from_bytes = some g) := by
  constructor
  · rintro ⟨a, b, c, d, f⟩ h1 h2 h3 h4 h5
    rw [structPackEnvelope, if_pos ⟨h1, h2, h3, h4, h5⟩]
    exact envelope_decode_encode a b c d f h1 h2 h3 h4 h5
  · rintro ⟨d0, fl, bt, ax, ay, bx, by', tl, tr, dx, dy⟩
      h1 h2 h3 h4 h5 h6 h7 h8 h9 h10 h11 h12 h13 h14 h15 h16 h17
    rw [structPackGS,
      if_pos ⟨h1, h2, h3, h4, h5, h6, h7, h8, h9, h10, h11, h12, h13, h14, h15,
        h16, h17⟩]
    exact gamepad_decode_encode d0 fl bt ax ay bx by' tl tr dx dy
      h1 h2 h3 h4 h5 h6 h7 h8 h9 h10 h11 h12 h13 h14 h15 h16 h17

/-- Witness for C4: both round trips at concrete in-range records (including
negative signed fields). -/
theorem codec_roundtrip_witness :
    (structPackEnvelope ⟨1, 2, 20, 3, 4⟩).bind Envelope.from_bytes =
      some ⟨1, 2, 20, 3, 4⟩ ∧
    (structPackGS ⟨0, 1, 2, -3, 4, -5, 6, 7, 8, -1, 0⟩).bind GamepadState.from_bytes =
      some ⟨0, 1, 2, -3, 4, -5, 6, 7, 8, -1, 0⟩ :=
  ⟨codec_roundtrip.1 ⟨1, 2, 20, 3, 4⟩ (by decide) (by decide) (by decide)
      (by decide) (by decide),
    codec_roundtrip.2 ⟨0, 1, 2, -3, 4, -5, 6, 7, 8, -1, 0⟩ (by decide) (by decide)
      (by decide) (by decide) (by decide) (by decide) (by decide) (by decide)
      (by decide) (by decide) (by decide) (by decide) (by decide) (by decide)
      (by decide) (by decide) (by decide)⟩

/-- C10: for every non-negative `seq`, `pack_gamepad_state(seq)` succeeds
(`struct.pack` never raises) and returns exactly `GamepadState.SIZE = 20`
bytes: every generated field lies within its struct field's range — stick axes
within [-12000, 12000] ⊂ i16, triggers within [0, 1023] ⊂ u16, buttons one of
0x0001/0x0002, d-pad x in {-1, 0, 1}, d-pad y = 0, device_id 0, flags 0x01 —
so the source loops never crash on generation. -/
theorem pack_gamepad_state_total_in_range :
    ∀ seq : ℕ,
      (∃ bs, pack_gamepad_state seq = some bs ∧ bs.length = GamepadState.SIZE) ∧
      (gamepadFields seq).device_id = 0 ∧
      (gamepadFields seq).flags = 1 ∧
      ((gamepadFields seq).buttons = 1 ∨ (gamepadFields seq).buttons = 2) ∧
      (-12000 ≤ (gamepadFields seq).lx ∧ (gamepadFields seq).lx ≤ 12000) ∧
      (-12000 ≤ (gamepadFields seq).ly ∧ (gamepadFields seq).ly ≤ 12000) ∧
      (-12000 ≤ (gamepadFields seq).rx ∧ (gamepadFields seq).rx ≤ 12000) ∧
      (-12000 ≤ (gamepadFields seq).ry ∧ (gamepadFields seq).ry ≤ 12000) ∧
      (gamepadFields seq).l2 ≤ 1023 ∧ (gamepadFields seq).r2 ≤ 1023 ∧
      ((gamepadFields seq).dpad_x = -1 ∨ (gamepadFields seq).dpad_x = 0 ∨
        (gamepadFields seq).dpad_x = 1) ∧
      (gamepadFields seq).dpad_y = 0 := by
  intro seq
  have hlx := tri_bounds seq
  have hly := tri_bounds (seq + 50)
  have hrx := tri_bounds (seq + 100)
  have hry := tri_bounds (seq + 150)
  have hbtn : (gamepadFields seq).buttons = 1 ∨ (gamepadFields seq).buttons = 2 := by
    simp only [gamepadFields]
    split
    · exact Or.inl rfl
    · exact Or.inr rfl
  have hdx : (gamepadFields seq).dpad_x = -1 ∨ (gamepadFields seq).dpad_x = 0 ∨
      (gamepadFields seq).dpad_x = 1 := by
    simp only [gamepadFields]
    split
    · exact Or.inl rfl
    · split
      · exact Or.inr (Or.inr rfl)
      · exact Or.inr (Or.inl rfl)
  have hl2 : (gamepadFields seq).l2 ≤ 1023 := by
    simp only [gamepadFields]
    omega
  have hr2 : (gamepadFields seq).r2 ≤ 1023 := by
    simp only [gamepadFields]
    omega
  have hc : (gamepadFields seq).device_id < 256 ∧ (gamepadFields seq).flags < 256 ∧
      (gamepadFields seq).buttons < 65536 ∧
      -32768 ≤ (gamepadFields seq).lx ∧ (gamepadFields seq).lx ≤ 32767 ∧
      -32768 ≤ (gamepadFields seq).ly ∧ (gamepadFields seq).ly ≤ 32767 ∧
      -32768 ≤ (gamepadFields seq).rx ∧ (gamepadFields seq).rx ≤ 32767 ∧
      -32768 ≤ (gamepadFields seq).ry ∧ (gamepadFields seq).ry ≤ 32767 ∧
      (gamepadFields seq).l2 < 65536 ∧ (gamepadFields seq).r2 < 65536 ∧
      -32768 ≤ (gamepadFields seq).dpad_x ∧ (gamepadFields seq).dpad_x ≤ 32767 ∧
      -32768 ≤ (gamepadFields seq).dpad_y ∧ (gamepadFields seq).dpad_y ≤ 32767 := by
    simp only [gamepadFields] at hlx hly hrx hry ⊢
    split_ifs <;> (refine ⟨?_, ?_, ?_, ?_, ?_, ?_, ?_, ?_, ?_, ?_, ?_, ?_, ?_,
      ?_, ?_, ?_, ?_⟩ <;> omega)
  refine ⟨⟨toLE 1 (gamepadFields seq).device_id ++ toLE 1 (gamepadFields seq).flags ++
      toLE 2 (gamepadFields seq).buttons ++ i16ToLE (gamepadFields seq).lx ++
      i16ToLE (gamepadFields seq).ly ++ i16ToLE (gamepadFields seq).rx ++
      i16ToLE (gamepadFields seq).ry ++ toLE 2 (gamepadFields seq).l2 ++
      toLE 2 (gamepadFields seq).r2 ++ i16ToLE (gamepadFields seq).dpad_x ++
      i16ToLE (gamepadFields seq).dpad_y, ?_, ?_⟩,
    rfl, rfl, hbtn, hlx, hly, hrx, hry, hl2, hr2, hdx, rfl⟩
  · unfold pack_gamepad_state structPackGS
    rw [if_pos hc]
  · simp [GamepadState.SIZE]

end RelayApp
